import Mathlib

/-
  Verification of the Lost-Watch-Finder matching pipeline.

  Shallow embedding of the repository's matching code:
  - `match_watch.py` (class WatchMatcher): match_single_image, batch_match,
    get_confidence_level;
  - `scrapers/ebay_scraper.py`: scrape_ebay (its failure path);
  - `run_all.py` (class WatchFinderOrchestrator): the top-match aggregation of
    generate_session_summary.

  Modelling conventions:
  - CLIP embedding vectors (torch float tensors) are idealised as exact rational
    vectors `List ℚ`; similarity scores live in `ℝ`.
  - `torch.cosine_similarity` is the normalized dot product (spec glossary);
    Lean's division-by-zero-equals-zero matches torch's behaviour on zero
    vectors (where the eps guard makes the quotient 0).
  - Filesystem paths are lists of components; `os.path.basename` is the last
    component, `os.path.join` appends a component.
  - The external effects of loading/encoding an image (PIL + CLIP) are an input
    of the model: an `ImageFile` carries the path together with the outcome of
    decoding, `Except` error-message `String` or the embedding vector.
    An exception in the Python code corresponds to the `Except.error` case.
  - `datetime.now()` is an explicit `now : String` parameter.
-/

/-- Dot product of two rational vectors, truncating to the shorter length
(the elementwise product of `torch` tensors of equal shape; the truncation
is never exercised by equal-shape CLIP embeddings). -/
def dotp (x y : List ℚ) : ℚ :=
  (List.zipWith (fun a b => a * b) x y).sum

/-- Squared Euclidean norm of a rational vector. -/
def normSq (x : List ℚ) : ℚ :=
  dotp x x

/-- Cosine similarity (`torch.cosine_similarity`): normalized dot product,
valued in the reals. For a zero vector the quotient is `0/0 = 0`, matching
torch's eps-guarded result. -/
noncomputable def cosineSim (x y : List ℚ) : ℝ :=
  ((dotp x y : ℚ) : ℝ) / (Real.sqrt ((normSq x : ℚ) : ℝ) * Real.sqrt ((normSq y : ℚ) : ℝ))

/-- `os.path.basename` on a component-list path: the last component. -/
def basename (p : List String) : String :=
  p.getLastD ""

/-- A test image as the matcher sees it: its path and the outcome of
`Image.open` + `preprocess` + `encode_image` (error message on failure). -/
structure ImageFile where
  path : List String
  decode : Except String (List ℚ)

/-- The successful result dictionary of `WatchMatcher.match_single_image`. -/
structure MatchRecord where
  test_image : String
  best_match : Option String
  best_score : ℝ
  is_likely_match : Bool
  confidence_level : String
  all_scores : List (String × ℝ)
  timestamp : String

/-- The error dictionary of `WatchMatcher.match_single_image`. -/
structure ErrorRecord where
  test_image : String
  error : String
  timestamp : String

/-- A `match_single_image` return value: the success dictionary or the error
dictionary. -/
inductive MatchOutput where
  | ok : MatchRecord → MatchOutput
  | err : ErrorRecord → MatchOutput

/-- `WatchMatcher.get_confidence_level`: bucket a similarity score into a
human-readable label via fixed strict cutoffs. -/
noncomputable def get_confidence_level (score : ℝ) : String :=
  if score > 0.90 then "Very Likely Match"
  else if score > 0.80 then "Possible Match"
  else if score > 0.70 then "Weak Match"
  else "No Match"

/-- State of the reference-comparison loop in `match_single_image`:
running best score, best match and the score dictionary (insertion order). -/
structure ScanState where
  best_score : ℝ
  best_match : Option String
  all_scores : List (String × ℝ)

/-- One iteration of the reference loop of `match_single_image`: compute the
cosine similarity to one reference, record it, update the running best when it
strictly improves. -/
noncomputable def match_step (q : List ℚ) (st : ScanState) (ref : String × List ℚ) : ScanState :=
  let similarity := cosineSim q ref.2
  { best_score := if similarity > st.best_score then similarity else st.best_score
    best_match := if similarity > st.best_score then some ref.1 else st.best_match
    all_scores := st.all_scores ++ [(ref.1, similarity)] }

/-- `WatchMatcher.match_single_image`: decode the test image, scan all
reference embeddings tracking the maximum cosine similarity, return the result
dictionary; on a decode/encode exception return the error dictionary. -/
noncomputable def match_single_image (refs : List (String × List ℚ)) (img : ImageFile)
    (threshold : ℝ) (now : String) : MatchOutput :=
  match img.decode with
  | Except.error e =>
      MatchOutput.err { test_image := basename img.path, error := e, timestamp := now }
  | Except.ok q =>
      let st := refs.foldl (match_step q) ⟨-1.0, none, []⟩
      MatchOutput.ok
        { test_image := basename img.path
          best_match := st.best_match
          best_score := st.best_score
          is_likely_match := if st.best_score ≥ threshold then true else false
          confidence_level := get_confidence_level st.best_score
          all_scores := st.all_scores
          timestamp := now }

/-- The final state of the scan in `match_single_image`. -/
noncomputable def matchScan (q : List ℚ) (refs : List (String × List ℚ)) : ScanState :=
  refs.foldl (match_step q) ⟨-1.0, none, []⟩

/-- Ordinal position of a confidence label, ordering
No Match < Weak Match < Possible Match < Very Likely Match. -/
def confidenceOrd (label : String) : ℕ :=
  if label = "Very Likely Match" then 3
  else if label = "Possible Match" then 2
  else if label = "Weak Match" then 1
  else 0

/-- A directory entry of the test folder: file name and decode outcome of the
image at that name. -/
structure DirEntry where
  name : String
  decode : Except String (List ℚ)

/-- The image-extension filter of `batch_match` (and `create_reference_cache`):
lower-cased name ends with one of the five image extensions. -/
def is_image_file (f : String) : Bool :=
  (f.toLower).endsWith ".png" || (f.toLower).endsWith ".jpg" ||
  (f.toLower).endsWith ".jpeg" || (f.toLower).endsWith ".webp" ||
  (f.toLower).endsWith ".bmp"

/-- `WatchMatcher.batch_match`: filter the folder listing to image files and
run `match_single_image` on each, accumulating results in order. -/
noncomputable def batch_match (refs : List (String × List ℚ)) (test_folder : List String)
    (entries : List DirEntry) (threshold : ℝ) (now : String) : List MatchOutput :=
  let test_images := entries.filter (fun e => is_image_file e.name)
  test_images.foldl
    (fun results e =>
      results ++ [match_single_image refs ⟨test_folder ++ [e.name], e.decode⟩ threshold now])
    []

/-- The test-image name an output reports (present in both dictionary shapes). -/
def outImageName : MatchOutput → String
  | MatchOutput.ok r => r.test_image
  | MatchOutput.err e => e.test_image

/- ### JSON model (the `json` module's value space, at AST level) -/

/-- A JSON value; numbers are idealised as reals, matching the score model. -/
inductive Json where
  | null : Json
  | bool : Bool → Json
  | num : ℝ → Json
  | str : String → Json
  | arr : List Json → Json
  | obj : List (String × Json) → Json

/-- Serialization of the optional best-match name (`None` becomes null). -/
def bestMatchToJson : Option String → Json
  | none => Json.null
  | some s => Json.str s

/-- Serialization of the `all_scores` dictionary. -/
def scoresToJson (l : List (String × ℝ)) : Json :=
  Json.obj (l.map (fun p => (p.1, Json.num p.2)))

/-- `json.dump` of one `match_single_image` result dictionary, with the key
layout the code builds (either the seven-field success dictionary or the
three-field error dictionary). -/
def outputToJson : MatchOutput → Json
  | MatchOutput.ok r =>
      Json.obj [("test_image", Json.str r.test_image),
                ("best_match", bestMatchToJson r.best_match),
                ("best_score", Json.num r.best_score),
                ("is_likely_match", Json.bool r.is_likely_match),
                ("confidence_level", Json.str r.confidence_level),
                ("all_scores", scoresToJson r.all_scores),
                ("timestamp", Json.str r.timestamp)]
  | MatchOutput.err e =>
      Json.obj [("test_image", Json.str e.test_image),
                ("error", Json.str e.error),
                ("timestamp", Json.str e.timestamp)]

/-- Reading back an `all_scores` object: every value must be a number. -/
def scoresFromJson : List (String × Json) → Option (List (String × ℝ))
  | [] => some []
  | (n, Json.num x) :: rest =>
      match scoresFromJson rest with
      | some l => some ((n, x) :: l)
      | none => none
  | _ => none

/-- Reading back the optional best-match name. -/
def bestMatchFromJson : Json → Option (Option String)
  | Json.null => some none
  | Json.str s => some (some s)
  | _ => none

/-- `json.load` of a result dictionary in the layout `outputToJson` emits
(an object with the seven success keys, or the three error keys, in dump
order — Python dicts preserve insertion order through a dump/load cycle). -/
def outputFromJson : Json → Option MatchOutput
  | Json.obj [("test_image", Json.str ti), ("best_match", bm),
      ("best_score", Json.num bs), ("is_likely_match", Json.bool il),
      ("confidence_level", Json.str cl), ("all_scores", Json.obj sc),
      ("timestamp", Json.str ts)] =>
      (match bestMatchFromJson bm, scoresFromJson sc with
      | some b, some l => some (MatchOutput.ok ⟨ti, b, bs, il, cl, l, ts⟩)
      | _, _ => none)
  | Json.obj [("test_image", Json.str ti), ("error", Json.str e),
      ("timestamp", Json.str ts)] =>
      some (MatchOutput.err ⟨ti, e, ts⟩)
  | _ => none

/-- The keys of a JSON object. -/
def jsonKeys : Json → List String
  | Json.obj l => l.map Prod.fst
  | _ => []

/- ### eBay scraper model (`scrapers/ebay_scraper.py`) -/

/-- One `.s-item` node of the eBay search page, after tag extraction: the
text/attribute of each selected tag when the tag is present, and the outcome
of the image download (request + file write producing a non-empty file). -/
structure EbayItem where
  title_tag : Option String
  link_tag : Option String
  img_tag : Option (Option String × Option String)
  price_tag : Option String
  download_ok : Bool

/-- One entry of the scraped-listing metadata list `scrape_ebay` builds. -/
structure EbayListingData where
  title : String
  url : String
  image_path : String
  image_url : String
  price : String
  scraped_at : String
  search_query : String

/-- The listing loop of `scrape_ebay`: skip incomplete listings and listings
without an image URL or with a failed download; stop after `maxr` successes.
`img_tag` carries the `src` and `data-src` attributes; the first present one
is the image URL. -/
def ebayLoop (query now folder : String) : List EbayItem → ℕ → ℕ → List EbayListingData
  | [], _, _ => []
  | it :: rest, count, maxr =>
      match it.title_tag, it.link_tag, it.img_tag, it.price_tag with
      | some title, some url, some (src, dsrc), some price =>
          (match src.orElse (fun _ => dsrc) with
          | none => ebayLoop query now folder rest count maxr
          | some img_url =>
              if it.download_ok then
                let d : EbayListingData :=
                  { title := title
                    url := url
                    image_path := folder ++ "/ebay_" ++ toString (count + 1) ++ "_" ++ now ++ ".jpg"
                    image_url := img_url
                    price := price
                    scraped_at := now
                    search_query := query }
                if count + 1 ≥ maxr then [d]
                else d :: ebayLoop query now folder rest (count + 1) maxr
              else ebayLoop query now folder rest count maxr)
      | _, _, _, _ => ebayLoop query now folder rest count maxr

/-- `scrape_ebay`: fetch the search page (`fetch` is the outcome of
`requests.get` + HTML parsing: the listing nodes, or the request error), scrape
the listings, write the metadata JSON and return its path; return `none` when
the page fetch raises or the final JSON write raises (`save_ok = false`). -/
def scrape_ebay (query : String) (max_results : ℕ) (output_folder : String)
    (fetch : Except String (List EbayItem)) (today : String) (now : String)
    (save_ok : Bool) : Option String :=
  match fetch with
  | Except.error _ => none
  | Except.ok listings =>
      let _results := ebayLoop query now output_folder listings 0 max_results
      if save_ok then some ("results/ebay_results_" ++ today ++ ".json") else none

/- ### Session summary aggregation (`run_all.py`) -/

/-- One platform's entry of `WatchFinderOrchestrator.match_results` (without
its error variant, which contributes no `match_details`). -/
structure PlatformResult where
  total_images : ℕ
  likely_matches : ℕ
  match_details : List MatchRecord

/-- The collection loop of `generate_session_summary`: every platform's
`match_details`, each tagged with its platform key. -/
def collect_all_matches (mr : List (String × PlatformResult)) : List (String × MatchRecord) :=
  mr.flatMap (fun p => p.2.match_details.map (fun m => (p.1, m)))

/-- Stable insertion into a list ordered by non-increasing `best_score`. -/
noncomputable def insertByScore (x : String × MatchRecord) :
    List (String × MatchRecord) → List (String × MatchRecord)
  | [] => [x]
  | y :: ys =>
      if x.2.best_score < y.2.best_score then y :: insertByScore x ys
      else x :: y :: ys

/-- Python `list.sort(key=best_score, reverse=True)`: stable sort by
non-increasing `best_score`, as insertion sort. -/
noncomputable def sortByScoreDesc : List (String × MatchRecord) → List (String × MatchRecord)
  | [] => []
  | x :: xs => insertByScore x (sortByScoreDesc xs)

/-- The `top_matches` field of `generate_session_summary`: all likely matches
across platforms, sorted by `best_score` descending, truncated to 10. -/
noncomputable def top_matches (mr : List (String × PlatformResult)) :
    List (String × MatchRecord) :=
  (sortByScoreDesc (collect_all_matches mr)).take 10

/- ### Basic facts about the similarity -/

theorem dotp_nil (y : List ℚ) : dotp [] y = 0 := rfl

theorem dotp_cons (a : ℚ) (x : List ℚ) (b : ℚ) (y : List ℚ) :
    dotp (a :: x) (b :: y) = a * b + dotp x y := by
  simp [dotp, List.zipWith]

theorem normSq_nonneg (x : List ℚ) : 0 ≤ normSq x := by
  induction x with
  | nil => simp [normSq, dotp]
  | cons a l ih =>
      have hc : normSq (a :: l) = a * a + dotp l l := dotp_cons a l a l
      rw [hc]
      have hl : 0 ≤ dotp l l := ih
      nlinarith [mul_self_nonneg a, hl]

theorem le_of_sq_le_sq_q (p q : ℚ) (h : p ^ 2 ≤ q ^ 2) (hq : 0 ≤ q) : p ≤ q := by
  nlinarith [sq_nonneg (p - q), sq_nonneg (p + q)]

/-- Inductive step of Cauchy–Schwarz. -/
theorem cs_step (a b d X Y : ℚ) (hd : d ^ 2 ≤ X * Y) (hX : 0 ≤ X) (hY : 0 ≤ Y) :
    (a * b + d) ^ 2 ≤ (a * a + X) * (b * b + Y) := by
  have h2 : 4 * (a * b) ^ 2 * d ^ 2 ≤ 4 * (a * b) ^ 2 * (X * Y) :=
    mul_le_mul_of_nonneg_left hd (by positivity)
  have h3 : 4 * (a * b) ^ 2 * (X * Y) ≤ (a ^ 2 * Y + X * b ^ 2) ^ 2 := by
    nlinarith [sq_nonneg (a ^ 2 * Y - X * b ^ 2)]
  have h1 : (2 * (a * b) * d) ^ 2 ≤ (a ^ 2 * Y + X * b ^ 2) ^ 2 := by nlinarith
  have hnn : 0 ≤ a ^ 2 * Y + X * b ^ 2 :=
    add_nonneg (mul_nonneg (sq_nonneg a) hY) (mul_nonneg hX (sq_nonneg b))
  have htwo : 2 * (a * b) * d ≤ a ^ 2 * Y + X * b ^ 2 :=
    le_of_sq_le_sq_q _ _ h1 hnn
  nlinarith [htwo, hd]

/-- Cauchy–Schwarz for the truncating dot product. -/
theorem dotp_sq_le (x y : List ℚ) : (dotp x y) ^ 2 ≤ normSq x * normSq y := by
  induction x generalizing y with
  | nil =>
      simp [dotp, normSq]
  | cons a l ih =>
      cases y with
      | nil =>
          simp [dotp, normSq]
      | cons b m =>
          have h := ih m
          have hX : 0 ≤ normSq l := normSq_nonneg l
          have hY : 0 ≤ normSq m := normSq_nonneg m
          rw [dotp_cons]
          rw [show normSq (a :: l) = a * a + normSq l from dotp_cons a l a l]
          rw [show normSq (b :: m) = b * b + normSq m from dotp_cons b m b m]
          exact cs_step a b (dotp l m) (normSq l) (normSq m) h hX hY

theorem abs_dotp_le (x y : List ℚ) :
    |((dotp x y : ℚ) : ℝ)| ≤ Real.sqrt ((normSq x : ℚ) : ℝ) * Real.sqrt ((normSq y : ℚ) : ℝ) := by
  have h : ((dotp x y : ℚ) : ℝ) ^ 2 ≤ ((normSq x : ℚ) : ℝ) * ((normSq y : ℚ) : ℝ) := by
    have := dotp_sq_le x y
    have hc : (((dotp x y) ^ 2 : ℚ) : ℝ) ≤ ((normSq x * normSq y : ℚ) : ℝ) := by
      exact_mod_cast this
    push_cast at hc
    linarith
  have hX : (0 : ℝ) ≤ ((normSq x : ℚ) : ℝ) := by exact_mod_cast normSq_nonneg x
  have hY : (0 : ℝ) ≤ ((normSq y : ℚ) : ℝ) := by exact_mod_cast normSq_nonneg y
  calc |((dotp x y : ℚ) : ℝ)|
      = Real.sqrt (((dotp x y : ℚ) : ℝ) ^ 2) := (Real.sqrt_sq_eq_abs _).symm
    _ ≤ Real.sqrt (((normSq x : ℚ) : ℝ) * ((normSq y : ℚ) : ℝ)) := Real.sqrt_le_sqrt h
    _ = Real.sqrt ((normSq x : ℚ) : ℝ) * Real.sqrt ((normSq y : ℚ) : ℝ) := Real.sqrt_mul hX _

/-- Cosine similarity is bounded by 1 in absolute value. -/
theorem abs_cosineSim_le_one (x y : List ℚ) : |cosineSim x y| ≤ 1 := by
  have habs := abs_dotp_le x y
  have hDnn : 0 ≤ Real.sqrt ((normSq x : ℚ) : ℝ) * Real.sqrt ((normSq y : ℚ) : ℝ) :=
    mul_nonneg (Real.sqrt_nonneg _) (Real.sqrt_nonneg _)
  rw [cosineSim]
  rcases eq_or_lt_of_le hDnn with h0 | hpos
  · have h1 : |((dotp x y : ℚ) : ℝ)| ≤ 0 := le_trans habs (le_of_eq h0.symm)
    have hd0 : ((dotp x y : ℚ) : ℝ) = 0 :=
      abs_eq_zero.mp (le_antisymm h1 (abs_nonneg _))
    rw [hd0]
    simp
  · rw [abs_div]
    rw [abs_of_pos hpos]
    exact div_le_one_of_le₀ habs (le_of_lt hpos)

theorem cosineSim_ge_neg_one (x y : List ℚ) : -1 ≤ cosineSim x y :=
  (abs_le.mp (abs_cosineSim_le_one x y)).1

theorem cosineSim_le_one (x y : List ℚ) : cosineSim x y ≤ 1 :=
  (abs_le.mp (abs_cosineSim_le_one x y)).2

/-- A vector has similarity exactly 1 with itself unless it is the zero vector. -/
theorem cosineSim_self (x : List ℚ) (hx : normSq x ≠ 0) : cosineSim x x = 1 := by
  have hX : (0 : ℝ) < ((normSq x : ℚ) : ℝ) := by
    have h0 : (0 : ℚ) ≤ normSq x := normSq_nonneg x
    have : (0 : ℚ) < normSq x := lt_of_le_of_ne h0 (Ne.symm hx)
    exact_mod_cast this
  rw [cosineSim, normSq]
  rw [Real.mul_self_sqrt (le_of_lt (by rw [← normSq] at *; exact hX))]
  rw [show ((dotp x x : ℚ) : ℝ) = ((normSq x : ℚ) : ℝ) from by rw [normSq]]
  exact div_self (ne_of_gt hX)

/- Concrete evaluations of the similarity, used at concrete inputs below. -/

theorem cosineSim_one_one : cosineSim [(1 : ℚ)] [(1 : ℚ)] = 1 := by
  apply cosineSim_self
  simp [normSq, dotp]

theorem cosineSim_one_negone : cosineSim [(1 : ℚ)] [(-1 : ℚ)] = -1 := by
  rw [cosineSim]
  have h1 : dotp [(1 : ℚ)] [(-1 : ℚ)] = -1 := by simp [dotp]
  have h2 : normSq [(1 : ℚ)] = 1 := by simp [normSq, dotp]
  have h3 : normSq [(-1 : ℚ)] = 1 := by simp [normSq, dotp]
  rw [h1, h2, h3]
  push_cast
  rw [Real.sqrt_one]
  norm_num

theorem cosineSim_one_two : cosineSim [(1 : ℚ)] [(2 : ℚ)] = 1 := by
  rw [cosineSim]
  have h1 : dotp [(1 : ℚ)] [(2 : ℚ)] = 2 := by norm_num [dotp]
  have h2 : normSq [(1 : ℚ)] = 1 := by norm_num [normSq, dotp]
  have h3 : normSq [(2 : ℚ)] = 4 := by norm_num [normSq, dotp]
  rw [h1, h2, h3]
  push_cast
  rw [Real.sqrt_one]
  rw [show (4 : ℝ) = 2 ^ 2 by norm_num, Real.sqrt_sq (by norm_num : (0:ℝ) ≤ 2)]
  norm_num

/- ### The reference-scan loop -/

theorem neg_one_lit : (-1.0 : ℝ) = -1 := by norm_num

/-- The score dictionary built by the loop: one entry per reference, in order,
appended after whatever the state already held. -/
theorem scan_all_scores (q : List ℚ) (refs : List (String × List ℚ)) (st : ScanState) :
    (refs.foldl (match_step q) st).all_scores
      = st.all_scores ++ refs.map (fun p => (p.1, cosineSim q p.2)) := by
  induction refs generalizing st with
  | nil => simp
  | cons r rest ih =>
      rw [List.foldl_cons, ih]
      simp [match_step]

/-- Loop invariant of the best-score/best-match tracking in
`match_single_image`: every recorded score is at most the running best; a
named best match attains the running best; an absent best match means the
running best is still the `-1` sentinel and every recorded score is at
most `-1`. -/
theorem scan_inv (q : List ℚ) (refs : List (String × List ℚ)) (st : ScanState)
    (h1 : ∀ p ∈ st.all_scores, p.2 ≤ st.best_score)
    (h2 : ∀ n, st.best_match = some n → (n, st.best_score) ∈ st.all_scores)
    (h3 : st.best_match = none → st.best_score = -1 ∧ ∀ p ∈ st.all_scores, p.2 ≤ -1) :
    (∀ p ∈ (refs.foldl (match_step q) st).all_scores,
        p.2 ≤ (refs.foldl (match_step q) st).best_score) ∧
    (∀ n, (refs.foldl (match_step q) st).best_match = some n →
        (n, (refs.foldl (match_step q) st).best_score)
          ∈ (refs.foldl (match_step q) st).all_scores) ∧
    ((refs.foldl (match_step q) st).best_match = none →
        (refs.foldl (match_step q) st).best_score = -1 ∧
        ∀ p ∈ (refs.foldl (match_step q) st).all_scores, p.2 ≤ -1) := by
  induction refs generalizing st with
  | nil => exact ⟨h1, h2, h3⟩
  | cons r rest ih =>
      rw [List.foldl_cons]
      apply ih
      · intro p hp
        simp only [match_step] at hp ⊢
        by_cases hgt : cosineSim q r.2 > st.best_score
        · rw [if_pos hgt]
          rcases List.mem_append.mp hp with hold | hnew
          · exact le_of_lt (lt_of_le_of_lt (h1 p hold) hgt)
          · simp at hnew
            rw [hnew]
        · rw [if_neg hgt]
          rcases List.mem_append.mp hp with hold | hnew
          · exact h1 p hold
          · simp at hnew
            have hp2 : p.2 = cosineSim q r.2 := by rw [hnew]
            rw [hp2]
            exact le_of_not_lt hgt
      · intro n hn
        simp only [match_step] at hn ⊢
        by_cases hgt : cosineSim q r.2 > st.best_score
        · rw [if_pos hgt] at hn
          rw [if_pos hgt]
          simp at hn
          rw [← hn]
          exact List.mem_append.mpr (Or.inr (by simp))
        · rw [if_neg hgt] at hn
          rw [if_neg hgt]
          exact List.mem_append.mpr (Or.inl (h2 n hn))
      · intro hn
        simp only [match_step] at hn ⊢
        by_cases hgt : cosineSim q r.2 > st.best_score
        · rw [if_pos hgt] at hn
          exact absurd hn (by simp)
        · rw [if_neg hgt] at hn
          rw [if_neg hgt]
          obtain ⟨hb, hall⟩ := h3 hn
          refine ⟨hb, ?_⟩
          intro p hp
          rcases List.mem_append.mp hp with hold | hnew
          · exact hall p hold
          · simp at hnew
            have hp2 : p.2 = cosineSim q r.2 := by rw [hnew]
            rw [hp2]
            rw [hb] at hgt
            exact le_of_not_lt hgt

theorem matchScan_all_scores (q : List ℚ) (refs : List (String × List ℚ)) :
    (matchScan q refs).all_scores = refs.map (fun p => (p.1, cosineSim q p.2)) := by
  rw [matchScan, scan_all_scores]
  rfl

theorem matchScan_inv (q : List ℚ) (refs : List (String × List ℚ)) :
    (∀ p ∈ (matchScan q refs).all_scores, p.2 ≤ (matchScan q refs).best_score) ∧
    (∀ n, (matchScan q refs).best_match = some n →
        (n, (matchScan q refs).best_score) ∈ (matchScan q refs).all_scores) ∧
    ((matchScan q refs).best_match = none →
        (matchScan q refs).best_score = -1 ∧
        ∀ p ∈ (matchScan q refs).all_scores, p.2 ≤ -1) := by
  apply scan_inv
  · intro p hp
    exact absurd hp (by simp)
  · intro n hn
    exact absurd hn (by simp)
  · intro _
    exact ⟨neg_one_lit, by simp⟩

/-- On a successfully decoded image, `match_single_image` returns the success
dictionary assembled from the scan state. -/
theorem match_single_image_ok (refs : List (String × List ℚ)) (path : List String)
    (q : List ℚ) (threshold : ℝ) (now : String) :
    match_single_image refs ⟨path, Except.ok q⟩ threshold now
      = MatchOutput.ok
          { test_image := basename path
            best_match := (matchScan q refs).best_match
            best_score := (matchScan q refs).best_score
            is_likely_match := if (matchScan q refs).best_score ≥ threshold then true else false
            confidence_level := get_confidence_level (matchScan q refs).best_score
            all_scores := (matchScan q refs).all_scores
            timestamp := now } := rfl

/- ### Confidence bucketing -/

theorem gcl_eq_very (s : ℝ) :
    get_confidence_level s = "Very Likely Match" ↔ 0.90 < s := by
  rw [get_confidence_level]
  split_ifs with h1 h2 h3
  · simp [h1]
  · exact ⟨fun h => absurd h (by decide), fun h => absurd h h1⟩
  · exact ⟨fun h => absurd h (by decide), fun h => absurd h h1⟩
  · exact ⟨fun h => absurd h (by decide), fun h => absurd h h1⟩

theorem gcl_eq_possible (s : ℝ) :
    get_confidence_level s = "Possible Match" ↔ 0.80 < s ∧ s ≤ 0.90 := by
  rw [get_confidence_level]
  split_ifs with h1 h2 h3
  · exact ⟨fun h => absurd h (by decide), fun h => absurd h1 (not_lt.mpr h.2)⟩
  · exact ⟨fun _ => ⟨h2, not_lt.mp h1⟩, fun _ => rfl⟩
  · exact ⟨fun h => absurd h (by decide), fun h => absurd h.1 h2⟩
  · exact ⟨fun h => absurd h (by decide), fun h => absurd h.1 h2⟩

theorem gcl_eq_weak (s : ℝ) :
    get_confidence_level s = "Weak Match" ↔ 0.70 < s ∧ s ≤ 0.80 := by
  rw [get_confidence_level]
  split_ifs with h1 h2 h3
  · exact ⟨fun h => absurd h (by decide),
      fun h => absurd h1 (not_lt.mpr (le_trans h.2 (by norm_num)))⟩
  · exact ⟨fun h => absurd h (by decide), fun h => absurd h2 (not_lt.mpr h.2)⟩
  · exact ⟨fun _ => ⟨h3, not_lt.mp h2⟩, fun _ => rfl⟩
  · exact ⟨fun h => absurd h (by decide), fun h => absurd h.1 h3⟩

theorem gcl_eq_no (s : ℝ) :
    get_confidence_level s = "No Match" ↔ s ≤ 0.70 := by
  rw [get_confidence_level]
  split_ifs with h1 h2 h3
  · exact ⟨fun h => absurd h (by decide),
      fun h => absurd h1 (not_lt.mpr (le_trans h (by norm_num)))⟩
  · exact ⟨fun h => absurd h (by decide),
      fun h => absurd h2 (not_lt.mpr (le_trans h (by norm_num)))⟩
  · exact ⟨fun h => absurd h (by decide), fun h => absurd h3 (not_lt.mpr h)⟩
  · exact ⟨fun _ => not_lt.mp h3, fun _ => rfl⟩

theorem gcl_mono (s1 s2 : ℝ) (h : s1 ≤ s2) :
    confidenceOrd (get_confidence_level s1) ≤ confidenceOrd (get_confidence_level s2) := by
  rw [get_confidence_level, get_confidence_level]
  split_ifs <;> first | decide | (exfalso; linarith)

/-- C3: the confidence label of `get_confidence_level` is monotone in the
score under the ordinal No Match < Weak Match < Possible Match <
Very Likely Match, and the buckets are exactly the strict cutoffs at
0.90 / 0.80 / 0.70. -/
theorem C3_confidence_monotone_buckets :
    (∀ s1 s2 : ℝ, s1 ≤ s2 →
        confidenceOrd (get_confidence_level s1) ≤ confidenceOrd (get_confidence_level s2)) ∧
    (∀ s : ℝ,
        (get_confidence_level s = "Very Likely Match" ↔ 0.90 < s) ∧
        (get_confidence_level s = "Possible Match" ↔ 0.80 < s ∧ s ≤ 0.90) ∧
        (get_confidence_level s = "Weak Match" ↔ 0.70 < s ∧ s ≤ 0.80) ∧
        (get_confidence_level s = "No Match" ↔ s ≤ 0.70)) :=
  ⟨gcl_mono, fun s => ⟨gcl_eq_very s, gcl_eq_possible s, gcl_eq_weak s, gcl_eq_no s⟩⟩

/-- Witness for C3 at concrete scores. -/
theorem C3_confidence_witness :
    confidenceOrd (get_confidence_level 0.75) ≤ confidenceOrd (get_confidence_level 0.95) ∧
    get_confidence_level 0.95 = "Very Likely Match" ∧
    get_confidence_level 0.85 = "Possible Match" ∧
    get_confidence_level 0.75 = "Weak Match" ∧
    get_confidence_level 0.5 = "No Match" :=
  ⟨C3_confidence_monotone_buckets.1 0.75 0.95 (by norm_num),
   ((C3_confidence_monotone_buckets.2 0.95).1).mpr (by norm_num),
   ((C3_confidence_monotone_buckets.2 0.85).2.1).mpr (by norm_num),
   ((C3_confidence_monotone_buckets.2 0.75).2.2.1).mpr (by norm_num),
   ((C3_confidence_monotone_buckets.2 0.5).2.2.2).mpr (by norm_num)⟩

/- ### Claims on match_single_image -/

theorem matchScan_scores_ge (q : List ℚ) (refs : List (String × List ℚ)) :
    ∀ p ∈ (matchScan q refs).all_scores, -1 ≤ p.2 := by
  intro p hp
  rw [matchScan_all_scores] at hp
  obtain ⟨pr, _, rfl⟩ := List.mem_map.mp hp
  exact cosineSim_ge_neg_one q pr.2

theorem matchScan_scores_le (q : List ℚ) (refs : List (String × List ℚ)) :
    ∀ p ∈ (matchScan q refs).all_scores, p.2 ≤ 1 := by
  intro p hp
  rw [matchScan_all_scores] at hp
  obtain ⟨pr, _, rfl⟩ := List.mem_map.mp hp
  exact cosineSim_le_one q pr.2

/-- C1 (amended): on a decodable image and a non-empty reference mapping,
`match_single_image` records exactly one cosine-similarity score per reference
in `all_scores`; `best_score` is the maximum of those scores (an upper bound
that is attained); any named `best_match` attains `best_score` in
`all_scores`; and a best match is named provided some reference scores
strictly above the `-1` sentinel. -/
theorem C1_best_score_is_max (refs : List (String × List ℚ)) (path : List String)
    (q : List ℚ) (t : ℝ) (now : String) (r : MatchRecord)
    (hne : refs ≠ [])
    (hout : match_single_image refs ⟨path, Except.ok q⟩ t now = MatchOutput.ok r) :
    r.all_scores = refs.map (fun p => (p.1, cosineSim q p.2)) ∧
    (∀ p ∈ r.all_scores, p.2 ≤ r.best_score) ∧
    (∃ p ∈ r.all_scores, p.2 = r.best_score) ∧
    (∀ n, r.best_match = some n → (n, r.best_score) ∈ r.all_scores) ∧
    ((∃ p ∈ r.all_scores, -1 < p.2) → ∃ n, r.best_match = some n) := by
  rw [match_single_image_ok] at hout
  have hr := MatchOutput.ok.inj hout
  subst hr
  obtain ⟨inv1, inv2, inv3⟩ := matchScan_inv q refs
  refine ⟨matchScan_all_scores q refs, inv1, ?_, inv2, ?_⟩
  · cases hbm : (matchScan q refs).best_match with
    | some n => exact ⟨(n, (matchScan q refs).best_score), inv2 n hbm, rfl⟩
    | none =>
        obtain ⟨hb, hall⟩ := inv3 hbm
        have hnonempty : (matchScan q refs).all_scores ≠ [] := by
          rw [matchScan_all_scores]
          simp [hne]
        obtain ⟨p0, hp0⟩ := List.exists_mem_of_ne_nil _ hnonempty
        refine ⟨p0, hp0, ?_⟩
        have hge := matchScan_scores_ge q refs p0 hp0
        have hle := hall p0 hp0
        show p0.2 = (matchScan q refs).best_score
        rw [hb]
        linarith
  · rintro ⟨p, hp, hpgt⟩
    cases hbm : (matchScan q refs).best_match with
    | some n => exact ⟨n, rfl⟩
    | none =>
        obtain ⟨_, hall⟩ := inv3 hbm
        exact absurd hpgt (not_lt.mpr (hall p hp))

theorem scan_ce_eval :
    matchScan [(1 : ℚ)] [("a", [(-1 : ℚ)])] = ⟨-1.0, none, [("a", (-1 : ℝ))]⟩ := by
  rw [matchScan, List.foldl_cons, List.foldl_nil]
  simp only [match_step, cosineSim_one_negone]
  norm_num

/-- C1 counterexample: with the single reference embedding the negation of the
query, the similarity is exactly -1, which never strictly exceeds the -1.0
sentinel, so `best_match` stays None even though the mapping is non-empty:
the returned `best_match` is not the name of any reference, refuting the claim
as stated. -/
theorem C1_counterexample :
    match_single_image [("a", [(-1 : ℚ)])] ⟨["t.png"], Except.ok [(1 : ℚ)]⟩ 0.80 "ts"
      = MatchOutput.ok
          { test_image := "t.png", best_match := none, best_score := -1.0,
            is_likely_match := false, confidence_level := "No Match",
            all_scores := [("a", (-1 : ℝ))], timestamp := "ts" } := by
  rw [match_single_image_ok, scan_ce_eval]
  have hconf : get_confidence_level (-1.0 : ℝ) = "No Match" := (gcl_eq_no _).mpr (by norm_num)
  have hlik : (if (-1.0 : ℝ) ≥ 0.80 then true else false) = false := by norm_num
  simp [basename, hconf, hlik]

theorem scan_w_eval :
    matchScan [(1 : ℚ)] [("a", [(1 : ℚ)])] = ⟨1, some "a", [("a", (1 : ℝ))]⟩ := by
  rw [matchScan, List.foldl_cons, List.foldl_nil]
  simp only [match_step, cosineSim_one_one]
  norm_num

theorem match_w_eval :
    match_single_image [("a", [(1 : ℚ)])] ⟨["t.png"], Except.ok [(1 : ℚ)]⟩ 0.80 "ts"
      = MatchOutput.ok
          { test_image := "t.png", best_match := some "a", best_score := 1,
            is_likely_match := true, confidence_level := "Very Likely Match",
            all_scores := [("a", (1 : ℝ))], timestamp := "ts" } := by
  rw [match_single_image_ok, scan_w_eval]
  have hconf : get_confidence_level (1 : ℝ) = "Very Likely Match" :=
    (gcl_eq_very _).mpr (by norm_num)
  have hlik : (if (1 : ℝ) ≥ 0.80 then true else false) = true := by norm_num
  simp [basename, hconf, hlik]

/-- Witness for C1 at a concrete one-reference mapping. -/
theorem C1_witness :
    ([("a", (1 : ℝ))] : List (String × ℝ))
        = [("a", [(1 : ℚ)])].map (fun p => (p.1, cosineSim [(1 : ℚ)] p.2)) ∧
    (∀ p ∈ ([("a", (1 : ℝ))] : List (String × ℝ)), p.2 ≤ (1 : ℝ)) ∧
    (∃ p ∈ ([("a", (1 : ℝ))] : List (String × ℝ)), p.2 = (1 : ℝ)) ∧
    (∀ n, (some "a" : Option String) = some n → (n, (1 : ℝ)) ∈ ([("a", (1 : ℝ))] : List (String × ℝ))) ∧
    ((∃ p ∈ ([("a", (1 : ℝ))] : List (String × ℝ)), -1 < p.2) →
        ∃ n, (some "a" : Option String) = some n) :=
  C1_best_score_is_max [("a", [(1 : ℚ)])] ["t.png"] [(1 : ℚ)] 0.80 "ts"
    { test_image := "t.png", best_match := some "a", best_score := 1,
      is_likely_match := true, confidence_level := "Very Likely Match",
      all_scores := [("a", (1 : ℝ))], timestamp := "ts" }
    (List.cons_ne_nil _ _) match_w_eval

/-- C2: for a successful match result, `is_likely_match` is true exactly when
`best_score` reaches the threshold, for any threshold in [0, 1]. -/
theorem C2_is_likely_match_iff (refs : List (String × List ℚ)) (path : List String)
    (q : List ℚ) (t : ℝ) (now : String) (r : MatchRecord)
    (ht0 : 0 ≤ t) (ht1 : t ≤ 1)
    (hout : match_single_image refs ⟨path, Except.ok q⟩ t now = MatchOutput.ok r) :
    r.is_likely_match = true ↔ t ≤ r.best_score := by
  rw [match_single_image_ok] at hout
  have hr := MatchOutput.ok.inj hout
  subst hr
  by_cases hc : (matchScan q refs).best_score ≥ t
  · simp only [ge_iff_le] at hc
    simp [hc]
  · simp only [ge_iff_le] at hc
    simp [hc]

/-- Witness for C2 at threshold 0.80. -/
theorem C2_witness : (true = true) ↔ ((0.80 : ℝ) ≤ (1 : ℝ)) :=
  C2_is_likely_match_iff [("a", [(1 : ℚ)])] ["t.png"] [(1 : ℚ)] 0.80 "ts"
    { test_image := "t.png", best_match := some "a", best_score := 1,
      is_likely_match := true, confidence_level := "Very Likely Match",
      all_scores := [("a", (1 : ℝ))], timestamp := "ts" }
    (by norm_num) (by norm_num) match_w_eval

/-- C4: with an empty reference mapping, `match_single_image` on a decodable
image returns the success dictionary (it does not raise), with no best match
and the sentinel score -1.0. -/
theorem C4_empty_reference_map (path : List String) (q : List ℚ) (t : ℝ) (now : String) :
    ∃ r : MatchRecord,
      match_single_image [] ⟨path, Except.ok q⟩ t now = MatchOutput.ok r ∧
      r.best_match = none ∧ r.best_score = -1.0 :=
  ⟨_, match_single_image_ok [] path q t now, rfl, rfl⟩

/-- C5: a failed image decode/embedding makes `match_single_image` return the
error dictionary carrying the file's basename and the exception message (no
exception escapes), and a failed page fetch makes `scrape_ebay` return None
rather than propagating. -/
theorem C5_error_paths :
    (∀ (refs : List (String × List ℚ)) (path : List String) (e : String) (t : ℝ) (now : String),
        match_single_image refs ⟨path, Except.error e⟩ t now
          = MatchOutput.err { test_image := basename path, error := e, timestamp := now }) ∧
    (∀ (query : String) (maxr : ℕ) (folder e today now : String) (saveOk : Bool),
        scrape_ebay query maxr folder (Except.error e) today now saveOk = none) :=
  ⟨fun _ _ _ _ _ => rfl, fun _ _ _ _ _ _ _ => rfl⟩

/-- C7 (amended): when the query embedding equals one of the reference
embeddings and is non-zero, that reference's recorded similarity is exactly 1,
`best_score` is 1, and the returned `best_match` names a reference whose
recorded similarity is 1 — the first maximal one, which need not be the equal
reference itself. -/
theorem C7_self_similarity (refs : List (String × List ℚ)) (path : List String)
    (q : List ℚ) (t : ℝ) (now : String) (r : MatchRecord) (name : String)
    (hmem : (name, q) ∈ refs) (hq : normSq q ≠ 0)
    (hout : match_single_image refs ⟨path, Except.ok q⟩ t now = MatchOutput.ok r) :
    (name, (1 : ℝ)) ∈ r.all_scores ∧
    r.best_score = 1 ∧
    (∃ n2, r.best_match = some n2 ∧ (n2, (1 : ℝ)) ∈ r.all_scores) := by
  rw [match_single_image_ok] at hout
  have hr := MatchOutput.ok.inj hout
  subst hr
  obtain ⟨inv1, inv2, inv3⟩ := matchScan_inv q refs
  have hmem1 : (name, (1 : ℝ)) ∈ (matchScan q refs).all_scores := by
    rw [matchScan_all_scores]
    have hm := List.mem_map_of_mem (fun p => (p.1, cosineSim q p.2)) hmem
    simpa [cosineSim_self q hq] using hm
  have hub : (1 : ℝ) ≤ (matchScan q refs).best_score := inv1 (name, (1 : ℝ)) hmem1
  have hbest1 : (matchScan q refs).best_score = 1 := by
    cases hbm : (matchScan q refs).best_match with
    | some n =>
        have hbm1 := inv2 n hbm
        have hle := matchScan_scores_le q refs _ hbm1
        exact le_antisymm hle hub
    | none =>
        obtain ⟨hb, _⟩ := inv3 hbm
        rw [hb] at hub
        linarith
  refine ⟨hmem1, hbest1, ?_⟩
  cases hbm : (matchScan q refs).best_match with
  | some n =>
      refine ⟨n, rfl, ?_⟩
      have hbm1 := inv2 n hbm
      rw [hbest1] at hbm1
      exact hbm1
  | none =>
      obtain ⟨_, hall⟩ := inv3 hbm
      have := hall _ hmem1
      norm_num at this

theorem scan_c7_eval :
    matchScan [(1 : ℚ)] [("a", [(2 : ℚ)]), ("b", [(1 : ℚ)])]
      = ⟨1, some "a", [("a", (1 : ℝ)), ("b", (1 : ℝ))]⟩ := by
  rw [matchScan, List.foldl_cons, List.foldl_cons, List.foldl_nil]
  simp only [match_step, cosineSim_one_two, cosineSim_one_one]
  norm_num

theorem match_c7_eval :
    match_single_image [("a", [(2 : ℚ)]), ("b", [(1 : ℚ)])]
        ⟨["t.png"], Except.ok [(1 : ℚ)]⟩ 0.80 "ts"
      = MatchOutput.ok
          { test_image := "t.png", best_match := some "a", best_score := 1,
            is_likely_match := true, confidence_level := "Very Likely Match",
            all_scores := [("a", (1 : ℝ)), ("b", (1 : ℝ))], timestamp := "ts" } := by
  rw [match_single_image_ok, scan_c7_eval]
  have hconf : get_confidence_level (1 : ℝ) = "Very Likely Match" :=
    (gcl_eq_very _).mpr (by norm_num)
  have hlik : (if (1 : ℝ) ≥ 0.80 then true else false) = true := by norm_num
  simp [basename, hconf, hlik]

/-- C7 counterexample: the query [1] equals the (non-zero) embedding of
reference "b", yet the reference "a", a scaled copy seen earlier in the
mapping, also scores 1 and is returned as the best match instead of "b":
the matching reference is not "the best match". -/
theorem C7_counterexample :
    (("b", [(1 : ℚ)]) ∈ ([("a", [(2 : ℚ)]), ("b", [(1 : ℚ)])] : List (String × List ℚ))) ∧
    normSq [(1 : ℚ)] ≠ 0 ∧
    match_single_image [("a", [(2 : ℚ)]), ("b", [(1 : ℚ)])]
        ⟨["t.png"], Except.ok [(1 : ℚ)]⟩ 0.80 "ts"
      = MatchOutput.ok
          { test_image := "t.png", best_match := some "a", best_score := 1,
            is_likely_match := true, confidence_level := "Very Likely Match",
            all_scores := [("a", (1 : ℝ)), ("b", (1 : ℝ))], timestamp := "ts" } ∧
    (some "a" : Option String) ≠ some "b" :=
  ⟨by simp, by norm_num [normSq, dotp], match_c7_eval, by simp⟩

/-- Witness for C7 at a one-reference mapping whose embedding is the query. -/
theorem C7_witness :
    ("a", (1 : ℝ)) ∈ ([("a", (1 : ℝ))] : List (String × ℝ)) ∧
    (1 : ℝ) = 1 ∧
    (∃ n2, (some "a" : Option String) = some n2 ∧
        (n2, (1 : ℝ)) ∈ ([("a", (1 : ℝ))] : List (String × ℝ))) :=
  C7_self_similarity [("a", [(1 : ℚ)])] ["t.png"] [(1 : ℚ)] 0.80 "ts"
    { test_image := "t.png", best_match := some "a", best_score := 1,
      is_likely_match := true, confidence_level := "Very Likely Match",
      all_scores := [("a", (1 : ℝ))], timestamp := "ts" }
    "a" (by simp) (by norm_num [normSq, dotp]) match_w_eval

/-- C8: every successful match record carries exactly the seven keys of the
result dictionary, in construction order, and `test_image` is the basename of
the input path. -/
theorem C8_record_shape (refs : List (String × List ℚ)) (path : List String)
    (q : List ℚ) (t : ℝ) (now : String) (r : MatchRecord)
    (hout : match_single_image refs ⟨path, Except.ok q⟩ t now = MatchOutput.ok r) :
    r.test_image = basename path ∧
    jsonKeys (outputToJson (MatchOutput.ok r))
      = ["test_image", "best_match", "best_score", "is_likely_match",
         "confidence_level", "all_scores", "timestamp"] := by
  rw [match_single_image_ok] at hout
  have hr := MatchOutput.ok.inj hout
  subst hr
  exact ⟨rfl, rfl⟩

/-- Witness for C8 at a concrete image and mapping. -/
theorem C8_witness :
    ("t.png" = basename ["t.png"]) ∧
    jsonKeys (outputToJson (MatchOutput.ok
        { test_image := "t.png", best_match := some "a", best_score := 1,
          is_likely_match := true, confidence_level := "Very Likely Match",
          all_scores := [("a", (1 : ℝ))], timestamp := "ts" }))
      = ["test_image", "best_match", "best_score", "is_likely_match",
         "confidence_level", "all_scores", "timestamp"] :=
  C8_record_shape [("a", [(1 : ℚ)])] ["t.png"] [(1 : ℚ)] 0.80 "ts"
    { test_image := "t.png", best_match := some "a", best_score := 1,
      is_likely_match := true, confidence_level := "Very Likely Match",
      all_scores := [("a", (1 : ℝ))], timestamp := "ts" }
    match_w_eval

/- ### JSON round trip -/

theorem scoresFromJson_toJson (l : List (String × ℝ)) :
    scoresFromJson (l.map (fun p => (p.1, Json.num p.2))) = some l := by
  induction l with
  | nil => rfl
  | cons p rest ih =>
      cases p with
      | mk n x => simp [scoresFromJson, ih]

theorem bestMatch_roundtrip (o : Option String) :
    bestMatchFromJson (bestMatchToJson o) = some o := by
  cases o <;> rfl

/-- C9: dumping any result dictionary (success or error shape) to JSON and
loading it back yields the identical record — every field and its type is
preserved. -/
theorem C9_json_roundtrip (o : MatchOutput) :
    outputFromJson (outputToJson o) = some o := by
  cases o with
  | ok r =>
      cases r with
      | mk ti bm bs il cl sc ts =>
          simp [outputToJson, outputFromJson, scoresToJson,
            bestMatch_roundtrip, scoresFromJson_toJson]
  | err e =>
      cases e with
      | mk ti er ts => rfl

/- ### Batch matching -/

theorem foldl_append_singleton {α β : Type} (f : α → β) (l : List α) (init : List β) :
    l.foldl (fun acc a => acc ++ [f a]) init = init ++ l.map f := by
  induction l generalizing init with
  | nil => simp
  | cons a rest ih =>
      rw [List.foldl_cons, ih]
      simp

theorem basename_append (folder : List String) (nm : String) :
    basename (folder ++ [nm]) = nm := by
  rw [basename]
  simp

/-- C10: `batch_match` returns exactly one result per file of the listing
whose name passes the image-extension filter, in listing order; other files
contribute no record; and each record reports the corresponding file name as
its `test_image`. -/
theorem C10_batch_match_per_file (refs : List (String × List ℚ)) (folder : List String)
    (entries : List DirEntry) (t : ℝ) (now : String) :
    batch_match refs folder entries t now
      = (entries.filter (fun e => is_image_file e.name)).map
          (fun e => match_single_image refs ⟨folder ++ [e.name], e.decode⟩ t now) ∧
    (batch_match refs folder entries t now).map outImageName
      = (entries.filter (fun e => is_image_file e.name)).map (fun e => e.name) := by
  have h1 : batch_match refs folder entries t now
      = (entries.filter (fun e => is_image_file e.name)).map
          (fun e => match_single_image refs ⟨folder ++ [e.name], e.decode⟩ t now) := by
    rw [batch_match]
    exact foldl_append_singleton _ _ []
  refine ⟨h1, ?_⟩
  rw [h1, List.map_map]
  apply List.map_congr_left
  intro e _
  show outImageName (match_single_image refs ⟨folder ++ [e.name], e.decode⟩ t now) = e.name
  cases hd : e.decode with
  | error msg =>
      simp [match_single_image, outImageName, basename_append]
  | ok q =>
      rw [match_single_image_ok]
      simp [outImageName, basename_append]

/- ### Session summary: ranking and deduplication -/

theorem insertByScore_perm (x : String × MatchRecord) (l : List (String × MatchRecord)) :
    (insertByScore x l).Perm (x :: l) := by
  induction l with
  | nil => exact List.Perm.refl _
  | cons y ys ih =>
      simp only [insertByScore]
      by_cases hc : x.2.best_score < y.2.best_score
      · rw [if_pos hc]
        exact (ih.cons y).trans (List.Perm.swap x y ys)
      · rw [if_neg hc]

theorem insertByScore_pairwise (x : String × MatchRecord) (l : List (String × MatchRecord))
    (h : l.Pairwise (fun a b => b.2.best_score ≤ a.2.best_score)) :
    (insertByScore x l).Pairwise (fun a b => b.2.best_score ≤ a.2.best_score) := by
  induction l with
  | nil => simp [insertByScore]
  | cons y ys ih =>
      obtain ⟨hy, hys⟩ := List.pairwise_cons.mp h
      simp only [insertByScore]
      by_cases hc : x.2.best_score < y.2.best_score
      · rw [if_pos hc]
        apply List.pairwise_cons.mpr
        refine ⟨?_, ih hys⟩
        intro z hz
        have hz2 := (insertByScore_perm x ys).mem_iff.mp hz
        rcases List.mem_cons.mp hz2 with rfl | hzys
        · exact le_of_lt hc
        · exact hy z hzys
      · rw [if_neg hc]
        apply List.pairwise_cons.mpr
        refine ⟨?_, h⟩
        intro z hz
        rcases List.mem_cons.mp hz with rfl | hzys
        · exact le_of_not_lt hc
        · exact le_trans (hy z hzys) (le_of_not_lt hc)

theorem sortByScoreDesc_perm (l : List (String × MatchRecord)) :
    (sortByScoreDesc l).Perm l := by
  induction l with
  | nil => exact List.Perm.refl _
  | cons x xs ih =>
      simp only [sortByScoreDesc]
      exact (insertByScore_perm x _).trans (ih.cons x)

theorem sortByScoreDesc_sorted (l : List (String × MatchRecord)) :
    (sortByScoreDesc l).Pairwise (fun a b => b.2.best_score ≤ a.2.best_score) := by
  induction l with
  | nil => simp [sortByScoreDesc]
  | cons x xs ih =>
      simp only [sortByScoreDesc]
      exact insertByScore_pairwise x _ ih

theorem collect_fst_mem (mr : List (String × PlatformResult)) (z : String × MatchRecord)
    (hz : z ∈ collect_all_matches mr) : z.1 ∈ mr.map Prod.fst := by
  rw [collect_all_matches] at hz
  obtain ⟨p, hp, hzp⟩ := List.mem_flatMap.mp hz
  obtain ⟨m, _, rfl⟩ := List.mem_map.mp hzp
  exact List.mem_map_of_mem Prod.fst hp

theorem collect_nodup (mr : List (String × PlatformResult))
    (hkeys : (mr.map Prod.fst).Nodup)
    (hdetails : ∀ p ∈ mr, p.2.match_details.Nodup) :
    (collect_all_matches mr).Nodup := by
  induction mr with
  | nil => simp [collect_all_matches]
  | cons p rest ih =>
      simp only [List.map_cons] at hkeys
      obtain ⟨hnotin, hkrest⟩ := List.nodup_cons.mp hkeys
      rw [collect_all_matches, List.flatMap_cons]
      apply List.Nodup.append
      · apply List.Nodup.map
        · intro a b hab
          simpa using congrArg Prod.snd hab
        · exact hdetails p (List.mem_cons_self p rest)
      · exact ih hkrest (fun p2 hp2 => hdetails p2 (List.mem_cons_of_mem _ hp2))
      · intro z hzl hzr
        obtain ⟨m, _, rfl⟩ := List.mem_map.mp hzl
        exact hnotin (collect_fst_mem rest _ hzr)

/-- C6: the session summary's `top_matches` list is ranked by `best_score` in
non-increasing order; and it is duplicate-free given the pipeline invariants:
`match_results` is a dictionary (distinct platform keys) and each platform's
`match_details` list — one record per scraped image file — has no duplicates. -/
theorem C6_top_matches_ranked_dedup (mr : List (String × PlatformResult))
    (hkeys : (mr.map Prod.fst).Nodup)
    (hdetails : ∀ p ∈ mr, p.2.match_details.Nodup) :
    (top_matches mr).Pairwise (fun a b => b.2.best_score ≤ a.2.best_score) ∧
    (top_matches mr).Nodup := by
  constructor
  · exact (sortByScoreDesc_sorted (collect_all_matches mr)).sublist (List.take_sublist _ _)
  · have h1 : (collect_all_matches mr).Nodup := collect_nodup mr hkeys hdetails
    have h2 : (sortByScoreDesc (collect_all_matches mr)).Nodup :=
      (sortByScoreDesc_perm _).nodup_iff.mpr h1
    exact h2.sublist (List.take_sublist _ _)

/-- Witness for C6 at a two-platform result dictionary. -/
theorem C6_witness :
    (top_matches
        [("ebay", ⟨1, 1, [⟨"x.jpg", some "a", 0.95, true, "Very Likely Match",
            [("a", (0.95 : ℝ))], "ts"⟩]⟩),
         ("poshmark", ⟨1, 1, [⟨"y.jpg", some "a", 0.85, true, "Possible Match",
            [("a", (0.85 : ℝ))], "ts"⟩]⟩)]).Pairwise
      (fun a b => b.2.best_score ≤ a.2.best_score) ∧
    (top_matches
        [("ebay", ⟨1, 1, [⟨"x.jpg", some "a", 0.95, true, "Very Likely Match",
            [("a", (0.95 : ℝ))], "ts"⟩]⟩),
         ("poshmark", ⟨1, 1, [⟨"y.jpg", some "a", 0.85, true, "Possible Match",
            [("a", (0.85 : ℝ))], "ts"⟩]⟩)]).Nodup :=
  C6_top_matches_ranked_dedup _ (by simp) (by
    intro p hp
    rcases List.mem_cons.mp hp with rfl | hp2
    · simp
    · rcases List.mem_cons.mp hp2 with rfl | hp3
      · simp
      · exact absurd hp3 (by simp))
